import Mathlib

/-!
Verification development for the player-update pipeline of this repository
(`src/player.rs`). The Rust source is shallowly embedded:

* the literal regular expressions of `fixup_nsig_jscode` and
  `extract_player_js_global_var` (player.rs lines 39-99) are hand-compiled
  into deterministic scanners over `List Char` (each of those patterns is
  deterministic: every quantifier's continuation starts with a character
  disjoint from the quantified class, so greedy scanning equals the regex
  crate's leftmost-first backtracking semantics);
* the pattern constants of the `consts` module (NSIG_FUNCTION_ARRAYS,
  REGEX_PLAYER_ID, ...) are not part of the staged sources, so they and the
  regex engine applied to dynamically built patterns are abstracted as
  function-valued parameters (`Consts`, `RegexEngine`), modelled from the
  spec: an ordered candidate list per goal, each candidate returning named
  captures or no match;
* `fetch_update` (player.rs lines 101-336) is embedded as a pure function
  from its environment (env vars, network responses, clock, initial cache
  record) to an outcome, a final cache record and the list of network
  requests it issued.  A Rust `panic!` / `Option::unwrap` on `None` is a
  distinguished `panicked` outcome, distinct from every typed
  `FetchUpdateStatus` error.

Machine integers: `player_id : u32`, `signature_timestamp : u64` and array
indices are `Nat` with explicit range checks where the Rust parse would
overflow and panic.
-/

/-! ### Character classes (ASCII fragment of the regex classes used) -/

/-- `\s` of the regex crate, restricted to ASCII (the bundles scanned are
ASCII JavaScript): space, tab, newline, carriage return, vertical tab,
form feed. -/
def isWsChar (c : Char) : Bool :=
  c == ' ' || c == '\t' || c == '\n' || c == '\r' || c == '\x0b' || c == '\x0c'

/-- The class `[a-zA-Z0-9_$]` used for identifiers in player.rs patterns. -/
def isIdentDollarChar (c : Char) : Bool :=
  (c.isAlpha && c.toNat < 128) || c.isDigit || c == '_' || c == '$'

/-- `\w` (ASCII): letters, digits, underscore.  Note it does NOT contain
`$`, which matters for the guard-removal pattern of `fixup_nsig_jscode`. -/
def isWordChar (c : Char) : Bool :=
  (c.isAlpha && c.toNat < 128) || c.isDigit || c == '_'

/-- `\d` (ASCII digits). -/
def isDigitChar (c : Char) : Bool := c.isDigit

/-! ### Integer parsing (u32::from_str_radix 16, and decimal usize/u64) -/

/-- Value of one hexadecimal digit, as `char::to_digit(16)` accepts it. -/
def hexVal? (c : Char) : Option Nat :=
  if c.isDigit then some (c.toNat - 48)
  else if 'a' ≤ c ∧ c ≤ 'f' then some (c.toNat - 87)
  else if 'A' ≤ c ∧ c ≤ 'F' then some (c.toNat - 55)
  else none

/-- Fold of hex digits; `none` on any non-digit. -/
def parseHexList : List Char → Nat → Option Nat
  | [], acc => some acc
  | c :: t, acc =>
    match hexVal? c with
    | none => none
    | some d => parseHexList t (acc * 16 + d)

/-- `u32::from_str_radix(s, 16)` as used at player.rs:32/118: optional
leading `+`, at least one digit, value must fit in 32 bits (overflow is an
`Err`, which the caller `unwrap`s into a panic — modelled as `none`). -/
def parseHexU32 (s : String) : Option Nat :=
  let l := match s.data with
    | '+' :: t => t
    | l => l
  match l with
  | [] => none
  | _ =>
    match parseHexList l 0 with
    | none => none
    | some v => if v < 2 ^ 32 then some v else none

/-- Decimal digit value. -/
def decVal? (c : Char) : Option Nat :=
  if c.isDigit then some (c.toNat - 48) else none

/-- Fold of decimal digits; `none` on any non-digit. -/
def parseDecList : List Char → Nat → Option Nat
  | [], acc => some acc
  | c :: t, acc =>
    match decVal? c with
    | none => none
    | some d => parseDecList t (acc * 10 + d)

/-- `str::parse::<usize>` / `::<u64>` (player.rs:194, 324) on a 64-bit
target: optional `+`, at least one digit, value below `2^64`. -/
def parseDecU64 (s : String) : Option Nat :=
  let l := match s.data with
    | '+' :: t => t
    | l => l
  match l with
  | [] => none
  | _ =>
    match parseDecList l 0 with
    | none => none
    | some v => if v < 2 ^ 64 then some v else none

/-! ### Scanner combinators

Each combinator consumes a prefix of the input and returns the rest
(`none` = the pattern fragment does not match here). -/

/-- Match a literal character sequence. -/
def lit : List Char → List Char → Option (List Char)
  | [], l => some l
  | _ :: _, [] => none
  | p :: ps, c :: cs => if c = p then lit ps cs else none

/-- `\s*`: greedily skip whitespace. -/
def skipWs (l : List Char) : List Char := l.dropWhile isWsChar

/-- `\s+`: at least one whitespace character, then greedy. -/
def ws1 : List Char → Option (List Char)
  | [] => none
  | c :: cs => if isWsChar c then some (cs.dropWhile isWsChar) else none

/-- `(cls)+` greedy with capture: the longest nonempty prefix in the class,
returned together with the rest. -/
def chars1 (p : Char → Bool) (l : List Char) : Option (List Char × List Char) :=
  match l.takeWhile p with
  | [] => none
  | cap => some (cap, l.dropWhile p)

/-- Leftmost search: try the matcher at every start position, first success
wins (the regex crate's leftmost match). -/
def findSome {α : Type} (f : List Char → Option α) : List Char → Option α
  | [] => f []
  | l@(_ :: t) =>
    match f l with
    | some a => some a
    | none => findSome f t

/-! ### `$`-escaping of captured names (player.rs `.replace("$", "\\$")`) -/

/-- `captured.replace("$", "\\$")` (player.rs:199,232,265,287): every `$`
becomes `\$`, every other character is kept. -/
def escapeDollar (l : List Char) : List Char :=
  l.foldr (fun c acc => (if c = '$' then ['\\', '$'] else [c]) ++ acc) []

/-- String form of `escapeDollar`. -/
def escapeDollarStr (s : String) : String := ⟨escapeDollar s.data⟩

/-- Execute an escaped-literal regex fragment: `\c` consumes the literal
character `c`; a bare `$` is the regex crate's end-of-haystack anchor
(no `(?m)` flag), so it matches only at the end of the input; any other
pattern character consumes itself.  The fragments this is applied to come
from captures over `[a-zA-Z0-9_$]`, so no other metacharacter occurs. -/
def execEscLit : List Char → List Char → Option (List Char)
  | [], l => some l
  | p :: ps, l =>
    if p = '\\' then
      match ps with
      | [] => none
      | q :: ps2 =>
        match l with
        | [] => none
        | c :: cs => if c = q then execEscLit ps2 cs else none
    else if p = '$' then
      if l.isEmpty then execEscLit ps [] else none
    else
      match l with
      | [] => none
      | c :: cs => if c = p then execEscLit ps cs else none

/-- A pattern fragment has no bare `$` metacharacter (every `$` is escaped):
the well-formedness the escaping step is meant to guarantee. -/
def noBareDollar : List Char → Bool
  | [] => true
  | p :: ps =>
    if p = '\\' then
      match ps with
      | [] => false
      | _ :: ps2 => noBareDollar ps2
    else if p = '$' then false
    else noBareDollar ps

/-! ### `str::replace(needle, "")` (player.rs:79) -/

/-- Does `needle` occur as a contiguous sublist? -/
def occursIn (needle : List Char) : List Char → Bool
  | [] => needle.isEmpty
  | l@(_ :: t) => needle.isPrefixOf l || occursIn needle t

/-- Fuel-driven core of `str::replace(needle, "")`: left-to-right,
non-overlapping occurrences removed.  Each step consumes at least one
input character, so `fuel = input.length` never runs out. -/
def stripAllF (needle : List Char) : Nat → List Char → List Char
  | _, [] => []
  | 0, l => l
  | f + 1, c :: t =>
    if needle.isPrefixOf (c :: t) && !needle.isEmpty then
      stripAllF needle f ((c :: t).drop needle.length)
    else
      c :: stripAllF needle f t

/-- `jscode.replace(needle, "")` for a nonempty needle. -/
def stripAll (needle l : List Char) : List Char := stripAllF needle l.length l

/-! ### The global-variable extractor `extract_player_js_global_var`
(player.rs lines 39-60), hand-compiled from its regex

```
'use\s+strict';\s*
(?P<code>var\s+(?P<name>[a-zA-Z0-9_$]+)\s*=\s*
  (?P<value>(?:"..."|'...')\.split\((?:"..."|'...')\)
           |\[(?:(?:"..."|'...')\s*,?\s*)*\]))[;,]
```
where `"..."` is `"[^"\\]*(?:\\.[^"\\]*)*"` (and the `'` variant). -/

/-- Body of a quoted string after its opening quote `q`:
characters other than `q` and `\`; `\` consumes the next character, which
must not be a newline (`\\.` — `.` excludes `\n`).  Returns the rest after
the closing quote. -/
def qstrBody (q : Char) : List Char → Option (List Char)
  | [] => none
  | c :: t =>
    if c = q then some t
    else if c = '\\' then
      match t with
      | [] => none
      | d :: t2 => if d = '\n' then none else qstrBody q t2
    else qstrBody q t

/-- One full quoted string, either `"…"` or `'…'`. -/
def quotedAt : List Char → Option (List Char)
  | [] => none
  | c :: t =>
    if c = '"' then qstrBody '"' t
    else if c = '\x27' then qstrBody '\x27' t
    else none

/-- `\s*,?\s*` between bracket-list items. -/
def commaSkip (l : List Char) : List Char :=
  match skipWs l with
  | ',' :: t => skipWs t
  | r => r

/-- Items of the bracketed-list alternative `(?:(?:"…"|'…')\s*,?\s*)*\]`,
after the opening `[`.  Fuel-driven; each iteration consumes at least the
two quote characters, so `fuel = input.length` suffices. -/
def bracketItems : Nat → List Char → Option (List Char)
  | _, ']' :: t => some t
  | 0, _ => none
  | f + 1, l =>
    match quotedAt l with
    | none => none
    | some r => bracketItems f (commaSkip r)

/-- The `value` alternation: `"…".split("…")` (leftmost alternative, starts
with a quote) or a bracketed literal list (starts with `[`). -/
def valueAt (l : List Char) : Option (List Char) :=
  match l with
  | '[' :: t => bracketItems t.length t
  | _ =>
    match quotedAt l with
    | none => none
    | some r =>
      match lit (".split(".data) r with
      | none => none
      | some r2 =>
        match quotedAt r2 with
        | none => none
        | some r3 => lit [')'] r3

/-- The whole global-variable pattern at one position; returns the named
captures `(code, name, value)`. -/
def globalVarAt (l : List Char) : Option (List Char × List Char × List Char) :=
  match lit ("'use".data) l with
  | none => none
  | some r0 =>
    match ws1 r0 with
    | none => none
    | some r1 =>
      match lit ("strict';".data) r1 with
      | none => none
      | some r2 =>
        let codeStart := skipWs r2
        match lit ("var".data) codeStart with
        | none => none
        | some r3 =>
          match ws1 r3 with
          | none => none
          | some r4 =>
            match chars1 isIdentDollarChar r4 with
            | none => none
            | some (name, r5) =>
              let r6 := skipWs r5
              match lit ['='] r6 with
              | none => none
              | some r7 =>
                let valStart := skipWs r7
                match valueAt valStart with
                | none => none
                | some r8 =>
                  match r8 with
                  | ';' :: _ =>
                    some (codeStart.take (codeStart.length - r8.length), name,
                          valStart.take (valStart.length - r8.length))
                  | ',' :: _ =>
                    some (codeStart.take (codeStart.length - r8.length), name,
                          valStart.take (valStart.length - r8.length))
                  | _ => none

/-- `extract_player_js_global_var` (player.rs:39-60): leftmost match of the
pattern over the bundle, returning `(code, name, value)`. -/
def extract_player_js_global_var (jscode : List Char) :
    Option (List Char × List Char × List Char) :=
  findSome globalVarAt jscode

/-- String-level wrapper used by the orchestrator model. -/
def extract_player_js_global_var_str (jscode : String) :
    Option (String × String × String) :=
  match extract_player_js_global_var jscode.data with
  | none => none
  | some (code, name, value) => some (⟨code⟩, ⟨name⟩, ⟨value⟩)

/-! ### The fixup transformer `fixup_nsig_jscode` (player.rs lines 62-99) -/

/-- The parameter pattern `function\s+[a-zA-Z0-9_$]+\s*\(([a-zA-Z0-9_$]+)\)`
(player.rs:67) at one position; returns the captured parameter name. -/
def paramAt (l : List Char) : Option (List Char) :=
  match lit ("function".data) l with
  | none => none
  | some r0 =>
    match ws1 r0 with
    | none => none
    | some r1 =>
      match chars1 isIdentDollarChar r1 with
      | none => none
      | some (_, r2) =>
        let r3 := skipWs r2
        match lit ['('] r3 with
        | none => none
        | some r4 =>
          match chars1 isIdentDollarChar r4 with
          | none => none
          | some (p, r5) =>
            match lit [')'] r5 with
            | none => none
            | some _ => some p

/-- The alternation `(?:"undefined"|'undefined'|VARNAME\[\d+\])` of the
guard pattern (player.rs:81), or just `"undefined"` in the fallback pattern
(player.rs:84) when `vn? = none`.  The captured variable name is
interpolated UNescaped at line 81; its characters are `[a-zA-Z0-9_$]`, of
which only `$` is a metacharacter — a bare `$` is an end anchor, and since
`\[\d+\]` must still match after it, an anchor-containing alternative can
never succeed. -/
def undefAlt (vn? : Option (List Char)) (l : List Char) : Option (List Char) :=
  match lit ("\"undefined\"".data) l with
  | some r => some r
  | none =>
    match vn? with
    | none => none
    | some vn =>
      match lit ("'undefined'".data) l with
      | some r => some r
      | none =>
        if vn.contains '$' then none
        else
          match lit vn l with
          | none => none
          | some r1 =>
            match lit ['['] r1 with
            | none => none
            | some r2 =>
              match chars1 isDigitChar r2 with
              | none => none
              | some (_, r3) => lit [']'] r3

/-- Tail of the guard-removal pattern after the `===?` operator:
`\s*ALT\s*\)\s*return\s+\w+;`. -/
def guardAfterEq (vn? : Option (List Char)) (l : List Char) : Option (List Char) :=
  (undefAlt vn? (skipWs l)).bind fun r13 =>
  (lit [')'] (skipWs r13)).bind fun r15 =>
  (lit ("return".data) (skipWs r15)).bind fun r17 =>
  (ws1 r17).bind fun r18 =>
  (chars1 isWordChar r18).bind fun p =>
  lit [';'] p.2

/-- Middle of the guard-removal pattern after the `typeof` keyword:
`\s+[a-zA-Z0-9_$]+\s*===?` (greedy optional third `=` via `Option.getD`)
then `guardAfterEq`. -/
def guardAfterTypeof (vn? : Option (List Char)) (l : List Char) :
    Option (List Char) :=
  (ws1 l).bind fun r7 =>
  (chars1 isIdentDollarChar r7).bind fun p =>
  (lit ['=', '='] (skipWs p.2)).bind fun r10 =>
  guardAfterEq vn? ((lit ['='] r10).getD r10)

/-- The guard-removal pattern
`;\s*if\s*\(\s*typeof\s+[a-zA-Z0-9_$]+\s*===?\s*ALT\s*\)\s*return\s+\w+;`
(player.rs:81 with the variable-name alternative, player.rs:84 without)
at one position; returns the rest after the match. -/
def guardAt (vn? : Option (List Char)) (l : List Char) : Option (List Char) :=
  (lit [';'] l).bind fun r0 =>
  (lit ("if".data) (skipWs r0)).bind fun r2 =>
  (lit ['('] (skipWs r2)).bind fun r4 =>
  (lit ("typeof".data) (skipWs r4)).bind fun r6 =>
  guardAfterTypeof vn? r6

/-- Fuel-driven `Regex::replace_all(text, ";")` for the guard pattern:
successive leftmost non-overlapping matches each replaced by a single
`;`.  A match always consumes at least its leading `;`, so
`fuel = input.length` never runs out. -/
def replaceAllGuardF (vn? : Option (List Char)) : Nat → List Char → List Char
  | _, [] => []
  | 0, l => l
  | f + 1, c :: t =>
    match guardAt vn? (c :: t) with
    | some rest => ';' :: replaceAllGuardF vn? f rest
    | none => c :: replaceAllGuardF vn? f t

/-- `fixup_re.replace_all(&result, ";")` (player.rs:93). -/
def replaceAllGuard (vn? : Option (List Char)) (l : List Char) : List Char :=
  replaceAllGuardF vn? l.length l

/-- `fixup_nsig_jscode` (player.rs:62-99).

1. the original parameter name is the first match of the parameter pattern
   in `jscode`, defaulting to `a`;
2. if the bundle has a global variable declaration, the function is
   reassembled as
   `function decrypt_nsig(<param>){<global>; <jscode with the header
   "function decrypt_nsig(<param>){" removed>` and the guard pattern
   includes the `varname[digits]` alternative;
3. otherwise `result` stays `jscode` and the simpler guard pattern
   (double-quoted `"undefined"` only) is used;
4. if the guard pattern matches, every occurrence is replaced by `;`. -/
def fixup_nsig_jscode (jscode player_javascript : List Char) : List Char :=
  let param_name := (findSome paramAt jscode).getD ['a']
  match extract_player_js_global_var player_javascript with
  | some (global_var, varname, _) =>
    let needle := ("function decrypt_nsig(".data) ++ param_name ++ [')', '\x7b']
    let result := needle ++ global_var ++ ("; ".data) ++ stripAll needle jscode
    if (findSome (guardAt (some varname)) result).isSome then
      replaceAllGuard (some varname) result
    else result
  | none =>
    if (findSome (guardAt none) jscode).isSome then
      replaceAllGuard none jscode
    else jscode

/-- String-level wrapper used by the orchestrator model. -/
def fixup_nsig_jscode_str (jscode player_javascript : String) : String :=
  ⟨fixup_nsig_jscode jscode.data player_javascript.data⟩

/-! ### Spec-level guard predicate

Modelled from the spec (section 4.5 step 3): an early-return guard clause
is text of the shape `if (typeof <x> === "undefined") return <x>;` (with
optional whitespace, `==` or `===`, double or single quoted `undefined`,
and `<x>` an identifier over `[a-zA-Z0-9_$]`).  Used only to STATE claims
about residual guards; the removal code above is the source's. -/
def specGuardAt (l : List Char) : Option (List Char) :=
  match lit ("if".data) l with
  | none => none
  | some r0 =>
    let r1 := skipWs r0
    match lit ['('] r1 with
    | none => none
    | some r2 =>
      let r3 := skipWs r2
      match lit ("typeof".data) r3 with
      | none => none
      | some r4 =>
        match ws1 r4 with
        | none => none
        | some r5 =>
          match chars1 isIdentDollarChar r5 with
          | none => none
          | some (_, r6) =>
            let r7 := skipWs r6
            match lit ['=', '='] r7 with
            | none => none
            | some r8 =>
              let r9 := match lit ['='] r8 with
                | some x => x
                | none => r8
              let r10 := skipWs r9
              let alt := match lit ("\"undefined\"".data) r10 with
                | some x => some x
                | none => lit ("'undefined'".data) r10
              match alt with
              | none => none
              | some r11 =>
                let r12 := skipWs r11
                match lit [')'] r12 with
                | none => none
                | some r13 =>
                  let r14 := skipWs r13
                  match lit ("return".data) r14 with
                  | none => none
                  | some r15 =>
                    match ws1 r15 with
                    | none => none
                    | some r16 =>
                      match chars1 isIdentDollarChar r16 with
                      | none => none
                      | some (_, r17) => lit [';'] r17

/-- Does the text contain a typeof-undefined early-return guard clause
(spec section 4.5 shape)? -/
def specHasTypeofGuard (l : List Char) : Bool :=
  (findSome specGuardAt l).isSome

/-! ### The derived structural-matcher pattern strings built in `fetch_update` -/

/-- The nsig array-context pattern (player.rs:197-200):
`var <escaped name>\s*=\s*\[(.+?)][;,]`. -/
def nsigContextPatternOf (name : String) : String :=
  "var " ++ escapeDollarStr name ++ "\\s*=\\s*\\[(.+?)][;,]"

/-- The signature-function body pattern (player.rs:264-266):
`<escaped name>=function\([a-zA-Z0-9_]+\)\{.+?\}`. -/
def sigBodyPatternOf (name : String) : String :=
  escapeDollarStr name ++ "=function\\([a-zA-Z0-9_]+\\)\\\x7b.+?\\\x7d"

/-- The helper-object body pattern (player.rs:285-288):
`(var <escaped name>=\{(?:.|\n)+?\}\};)`. -/
def helperPatternOf (name : String) : String :=
  "(var " ++ escapeDollarStr name ++ "=\\\x7b(?:.|\\n)+?\\\x7d\\\x7d;)"

/-- The nsig function-code pattern for one ending candidate (player.rs:229-234):
`(?ms)<escaped function name><ending>`. -/
def nsigEndingPatternOf (fnName ending : String) : String :=
  "(?ms)" ++ escapeDollarStr fnName ++ ending

/-- The hand-compiled matcher of the derived array-context pattern
`var <fragment>\s*=\s*\[(.+?)][;,]`, where `<fragment>` is an
escaped-literal fragment executed by `execEscLit`.  The lazy capture
`(.+?)` (no `(?s)` flag: `.` excludes `\n`) takes the shortest nonempty
span after which `]` and then `;` or `,` follow. -/
def lazyCaptGo (acc : List Char) : List Char → Option (List Char)
  | [] => none
  | c :: t =>
    if c = ']' then
      match t with
      | [] => none
      | d :: _ =>
        if d = ';' || d = ',' then some acc.reverse
        else lazyCaptGo (c :: acc) t
    else if c = '\n' then none
    else lazyCaptGo (c :: acc) t

/-- `(.+?)][;,]`: at least one captured character. -/
def lazyCapt : List Char → Option (List Char)
  | [] => none
  | c :: t => if c = '\n' then none else lazyCaptGo [c] t

/-- The array-context matcher at one position (pattern of
`nsigContextPatternOf`); returns capture group 1 (the array contents). -/
def arrayContextAt (escName : List Char) (l : List Char) : Option (List Char) :=
  (lit ("var ".data) l).bind fun r0 =>
  (execEscLit escName r0).bind fun r1 =>
  (lit ['='] (skipWs r1)).bind fun r3 =>
  (lit ['['] (skipWs r3)).bind fun r5 =>
  lazyCapt r5

/-- `.+?\}` of the signature-body pattern after its first consumed
character: lazily absorb non-newline characters until a `}` follows, and
consume that `}` (no `(?s)` flag: `.` excludes `\n`). -/
def lazyBraceGo : List Char → Option (List Char)
  | [] => none
  | c :: t =>
    if c = '\x7d' then some t
    else if c = '\n' then none
    else lazyBraceGo t

/-- `.+?\}`: at least one lazily consumed non-newline character, then the
closing `}`. -/
def lazyBrace : List Char → Option (List Char)
  | [] => none
  | c :: t => if c = '\n' then none else lazyBraceGo t

/-- The hand-compiled matcher of the derived signature-body pattern
`<fragment>=function\([a-zA-Z0-9_]+\)\{.+?\}` built at player.rs:264-266,
where `<fragment>` is the escaped signature-function name executed by
`execEscLit`.  The code uses capture group 0 (the whole match); a `some`
result is a successful match at this position, returning the rest. -/
def sigBodyAt (escName : List Char) (l : List Char) : Option (List Char) :=
  (execEscLit escName l).bind fun r0 =>
  (lit ("=function(".data) r0).bind fun r1 =>
  (chars1 isWordChar r1).bind fun p =>
  (lit [')', '\x7b'] p.2).bind fun r3 =>
  lazyBrace r3

/-- `(?:.|\n)+?\}\};` of the helper-object pattern after its first consumed
character: lazily absorb ANY characters (newline included, per the
explicit `(?:.|\n)` alternation) until `}};` follows, and consume it. -/
def lazyToBracesGo : List Char → Option (List Char)
  | [] => none
  | c :: t =>
    if c = '\x7d' then
      match t with
      | '\x7d' :: ';' :: t2 => some t2
      | _ => lazyToBracesGo t
    else lazyToBracesGo t

/-- `(?:.|\n)+?\}\};`: at least one lazily consumed character, then the
first occurrence of `}};`. -/
def lazyToBraces : List Char → Option (List Char)
  | [] => none
  | _ :: t => lazyToBracesGo t

/-- The hand-compiled matcher of the derived helper-object pattern
`(var <fragment>=\{(?:.|\n)+?\}\};)` built at player.rs:285-288 (the outer
parentheses are the regex capture group, not literal text).  The code uses
capture group 0; a `some` result is a successful match at this position,
returning the rest. -/
def helperAt (escName : List Char) (l : List Char) : Option (List Char) :=
  (lit ("var ".data) l).bind fun r0 =>
  (execEscLit escName r0).bind fun r1 =>
  (lit ['=', '\x7b'] r1).bind fun r2 =>
  lazyToBraces r2

/-! ### The orchestrator `fetch_update` (player.rs lines 101-336) -/

/-- The typed outcomes (player.rs:16-23). -/
inductive FetchUpdateStatus
  | CannotFetchTestVideo
  | CannotMatchPlayerID
  | CannotFetchPlayerJS
  | NsigRegexCompileFailed
  | PlayerAlreadyUpdated
deriving DecidableEq, Repr

/-- How one run of `fetch_update` ends: `Ok(())`, `Err(status)`, or a Rust
panic (an `unwrap` of `None` / a failed `Regex::new(..).unwrap()`), which
is an abort, not a typed outcome. -/
inductive Outcome
  | ok
  | err (e : FetchUpdateStatus)
  | panicked
deriving DecidableEq, Repr

/-- A network request issued by the run: the fixed reference page
(`TEST_YOUTUBE_VIDEO`, player.rs:103) or the player bundle URL templated on
the identifier (player.rs:155-158). -/
inductive Request
  | testVideo
  | playerJS (id : Nat)
deriving DecidableEq, Repr

/-- The shared cache record (jobs::GlobalState.player_info as used by
player.rs).  `has_player` keeps the source's `u8` sentinel encoding
(`0xFF` = populated); `last_update` is an abstract clock value. -/
structure PlayerInfo where
  player_id : Nat
  nsig_function_code : String
  sig_function_code : String
  sig_function_name : String
  signature_timestamp : Nat
  has_player : Nat
  last_update : Nat
deriving DecidableEq, Repr

/-- The environment variables read (consts::ENV_PLAYER_ID_FORCE,
consts::ENV_PLAYER_ID_UPDATE_DISABLED); `none` = variable unset. -/
structure Env where
  player_id_force : Option String
  player_id_update_disabled : Option String

/-- The network: the reference page body and the bundle body per player id
(`none` = transport failure of the GET). -/
structure Net where
  testVideoPage : Option String
  playerJS : Nat → Option String

/-- Named captures of one NSIG_FUNCTION_ARRAYS candidate: groups `nfunc`
and `idx` (player.rs:189-195); either may be absent from a match. -/
structure NsigArrayCaps where
  nfunc : Option String
  idx : Option String
deriving DecidableEq, Repr

/-- Modelled from the spec: the pattern constants of the `consts` module,
which is not part of the staged sources (only player.rs is).  Per the spec
(section 2 Pattern Library, 4.1, 4.3, 4.4, 4.6), each is a fixed structural
matcher — embedded as the function taking the haystack to its captures —
or, for the nsig goals, an ordered candidate list.  For the fixed regexes
the outer `Option` is the overall match and the inner `Option` is capture
group 1 (absent when the group did not participate).  The ending
candidates are pattern strings combined with the escaped function name and
run through the abstract engine, as in player.rs:229-235. -/
structure Consts where
  regexPlayerId : String → Option (Option String)
  nsigFunctionArrays : List (String → Option NsigArrayCaps)
  nsigFunctionEndings : List String
  nsigFunctionName : String
  regexSignatureFunction : String → Option (Option String)
  regexHelperObjName : String → Option (Option String)
  regexSignatureTimestamp : String → Option (Option String)

/-- Modelled from the spec: the regex engine applied to the dynamically
built pattern strings (the `Regex::new` + `captures` calls of
player.rs:202, 235, 268, 290).  `compiles` is `Regex::new` succeeding;
`captures pat hay` is the leftmost match's capture groups (index 0 the
whole match). -/
structure RegexEngine where
  compiles : String → Bool
  captures : String → String → Option (List (Option String))

/-- `caps.get(i)`: `none` when the index is out of range or the group did
not participate. -/
def groupGet (groups : List (Option String)) (i : Nat) : Option String :=
  groups.getD i none

/-- `str::split(',')` (player.rs:210-218): the comma-separated pieces, one
empty piece for an empty input, empty pieces kept. -/
def splitOnCommaList : List Char → List (List Char)
  | [] => [[]]
  | c :: t =>
    if c = ',' then [] :: splitOnCommaList t
    else
      match splitOnCommaList t with
      | [] => [[c]]
      | h :: r => (c :: h) :: r

/-- String form of `splitOnCommaList`. -/
def splitOnComma (s : String) : List String :=
  (splitOnCommaList s.data).map (fun l => ⟨l⟩)

/-- `player_id_forced` (player.rs:26-33): the forced id env var, defaulting
to "0"; "0" means no override; otherwise parsed as hex u32, whose failure
panics (`none`). -/
def player_id_forced (env : Env) : Option Nat :=
  let s := env.player_id_force.getD "0"
  if s = "0" then some 0 else parseHexU32 s

/-- `player_id_update_disabled` (player.rs:35-37). -/
def player_id_update_disabled (env : Env) : Bool :=
  env.player_id_update_disabled.getD "0" = "1"

/-- Result of resolving the player identifier (player.rs:111-121). -/
inductive ResolveRes
  | panicR
  | noMatch
  | resolved (n : Nat)
deriving DecidableEq, Repr

/-- Lines 112-121 given the already-computed forced value `pf`: if the
override is non-zero it is the identifier; otherwise
`REGEX_PLAYER_ID.captures(&response).unwrap().get(1)` — an overall
non-match PANICS at the `unwrap`, only a match whose group 1 is absent
returns `CannotMatchPlayerID`; the matched text is parsed as hex u32
(`unwrap`: parse failure panics). -/
def resolve_from (c : Consts) (pf : Nat) (response : String) : ResolveRes :=
  if pf ≠ 0 then .resolved pf
  else
    match c.regexPlayerId response with
    | none => .panicR
    | some none => .noMatch
    | some (some s) =>
      match parseHexU32 s with
      | none => .panicR
      | some m => .resolved m

/-- Resolution including the env read (player.rs:111-121). -/
def resolve_player_id (c : Consts) (env : Env) (response : String) : ResolveRes :=
  match player_id_forced env with
  | none => .panicR
  | some pf => resolve_from c pf response

/-- Result of the nsig-array candidate loop (player.rs:168-186). -/
inductive LoopRes (α : Type)
  | found (a : α)
  | errExit
  | exhausted
deriving DecidableEq, Repr

/-- The loop of player.rs:170-186, verbatim: candidates tried in order with
a running `index`; on a non-match the code returns
`NsigRegexCompileFailed` only `if index == NSIG_FUNCTION_ARRAYS.len()`
(`total` here), otherwise continues; a match breaks with the captures.
When the list is exhausted the `nsig_function_array_opt` stays `None`. -/
def nsigArrayLoop (cands : List (String → Option NsigArrayCaps))
    (index total : Nat) (pjs : String) : LoopRes NsigArrayCaps :=
  match cands with
  | [] => .exhausted
  | p :: rest =>
    match p pjs with
    | none => if index = total then .errExit else nsigArrayLoop rest (index + 1) total pjs
    | some caps => .found caps

/-- Result of the nsig function-ending loop (player.rs:229-254): a typed
error exit, a panic, or the final `nsig_function_code` string (which, when
the candidate list is exhausted without a match, is the bare accumulator
`"function " + NSIG_FUNCTION_NAME`, NOT an error — control falls through
to the signature extraction). -/
inductive EndRes
  | eErr
  | ePanic
  | eDone (code : String)
deriving DecidableEq, Repr

/-- The loop of player.rs:229-254, verbatim: for each ending candidate the
pattern `(?ms)<escaped fn name><ending>` is compiled (`unwrap`: failure
panics) and run over the bundle; on a non-match the code returns
`NsigRegexCompileFailed` only `if index == NSIG_FUNCTION_ENDINGS.len()`,
otherwise continues; on a match, capture group 1 (`unwrap`) is appended to
the accumulator and the result passed through `fixup_nsig_jscode`, then
the loop breaks. -/
def nsigEndingsLoop (eng : RegexEngine) (pjs fnName : String)
    (endings : List String) (index total : Nat) (acc : String) : EndRes :=
  match endings with
  | [] => .eDone acc
  | e :: rest =>
    let pat := nsigEndingPatternOf fnName e
    if eng.compiles pat then
      match eng.captures pat pjs with
      | none =>
        if index = total then .eErr
        else nsigEndingsLoop eng pjs fnName rest (index + 1) total acc
      | some g =>
        match groupGet g 1 with
        | none => .ePanic
        | some body => .eDone (fixup_nsig_jscode_str (acc ++ body) pjs)
    else .ePanic

/-- Assembly of the signature-decoder source (player.rs:298-313): forward
declaration, the global-variable declaration if one exists, the helper
object, the signature-function body. -/
def sigCodeAssemble (sig_function_name pjs helper_object_body sig_function_body :
    String) : String :=
  let base := "var " ++ sig_function_name ++ ";"
  let base := match extract_player_js_global_var_str pjs with
    | some (code, _, _) => base ++ code ++ ";"
    | none => base
  base ++ helper_object_body ++ sig_function_body

/-- Result of the extraction pipeline over a fetched bundle
(player.rs:168-325): a typed `NsigRegexCompileFailed` exit, a panic, or
the extracted `(nsig code, sig code, sig function name, timestamp)`. -/
inductive ExtractRes
  | regexFailed
  | panicked
  | okRes (nsig sig sname : String) (ts : Nat)
deriving DecidableEq, Repr

/-- Player.rs:197-325 after the array captures are in hand: the derived
context matcher is built (its `Regex::new` failure IS the one place that
returns `NsigRegexCompileFailed`, player.rs:202-208), run (`unwrap`:
non-match panics), its capture split on `,` and indexed (`get(idx).unwrap`:
out of range panics); then the endings loop, the signature function, the
helper object and the timestamp, each `unwrap` a panic. -/
def extract_after_array (c : Consts) (eng : RegexEngine) (pjs : String)
    (nsig_array_name : String) (nsig_array_value : Nat) : ExtractRes :=
  let ctxPat := nsigContextPatternOf nsig_array_name
  if eng.compiles ctxPat then
    match eng.captures ctxPat pjs with
    | none => .panicked
    | some groups =>
      match groupGet groups 1 with
      | none => .panicked
      | some content =>
        let array_values := splitOnComma content
        match array_values.get? nsig_array_value with
        | none => .panicked
        | some nsig_function_name =>
          match nsigEndingsLoop eng pjs nsig_function_name c.nsigFunctionEndings
              0 c.nsigFunctionEndings.length ("function " ++ c.nsigFunctionName) with
          | .eErr => .regexFailed
          | .ePanic => .panicked
          | .eDone nsig_code =>
            match c.regexSignatureFunction pjs with
            | none => .panicked
            | some none => .panicked
            | some (some sig_function_name) =>
              let sigPat := sigBodyPatternOf sig_function_name
              if eng.compiles sigPat then
                match eng.captures sigPat pjs with
                | none => .panicked
                | some g2 =>
                  match groupGet g2 0 with
                  | none => .panicked
                  | some sig_function_body =>
                    match c.regexHelperObjName sig_function_body with
                    | none => .panicked
                    | some none => .panicked
                    | some (some helper_object_name) =>
                      let helpPat := helperPatternOf helper_object_name
                      if eng.compiles helpPat then
                        match eng.captures helpPat pjs with
                        | none => .panicked
                        | some g3 =>
                          match groupGet g3 0 with
                          | none => .panicked
                          | some helper_object_body =>
                            let sig_code := sigCodeAssemble sig_function_name pjs
                              helper_object_body sig_function_body
                            match c.regexSignatureTimestamp pjs with
                            | none => .panicked
                            | some none => .panicked
                            | some (some tsStr) =>
                              match parseDecU64 tsStr with
                              | none => .panicked
                              | some ts =>
                                .okRes nsig_code sig_code sig_function_name ts
                      else .panicked
              else .panicked
  else .regexFailed

/-- The whole extraction pipeline (player.rs:168-325): the array-candidate
loop, then the unwraps of the `nfunc` and `idx` captures and the usize
parse of `idx`, then `extract_after_array`. -/
def extract_from_player_js (c : Consts) (eng : RegexEngine) (pjs : String) :
    ExtractRes :=
  match nsigArrayLoop c.nsigFunctionArrays 0 c.nsigFunctionArrays.length pjs with
  | .errExit => .regexFailed
  | .exhausted => .panicked
  | .found caps =>
    match caps.nfunc with
    | none => .panicked
    | some nm =>
      match caps.idx with
      | none => .panicked
      | some ixs =>
        match parseDecU64 ixs with
        | none => .panicked
        | some ix => extract_after_array c eng pjs nm ix

/-- `fetch_update` (player.rs:101-336) as a pure function of its inputs.
Order of effects, exactly as in the source:

1. GET the reference page (UNCONDITIONALLY, before the override is read);
   transport failure → `CannotFetchTestVideo`.
2. Resolve the identifier (`player_id_forced`, then the page regex when
   the override is 0).
3. Under the lock: when `has_player == 0xFF`, a non-zero override or the
   disabled flag returns `Ok` with no mutation.
4. When the resolved id equals the cached one: set `last_update := now`
   and return `Err(PlayerAlreadyUpdated)`.
5. When the ytdlp collaborator is requested: commit id, delegated
   timestamp, `has_player := 0xFF`, `last_update := now`; code fields
   untouched.
6. GET the bundle; transport failure → `CannotFetchPlayerJS`.
7. Run the extraction pipeline; on success commit the full group.

The returned triple is (outcome, final cache record, requests issued). -/
def fetch_update (c : Consts) (eng : RegexEngine) (env : Env) (net : Net)
    (ytdlpRequested : Bool) (ytdlpTs : Nat → Nat) (now : Nat)
    (st : PlayerInfo) : Outcome × PlayerInfo × List Request :=
  match net.testVideoPage with
  | none => (.err .CannotFetchTestVideo, st, [.testVideo])
  | some response =>
    match player_id_forced env with
    | none => (.panicked, st, [.testVideo])
    | some pf =>
      match resolve_from c pf response with
      | .panicR => (.panicked, st, [.testVideo])
      | .noMatch => (.err .CannotMatchPlayerID, st, [.testVideo])
      | .resolved player_id =>
        if st.has_player = 0xFF ∧ (pf ≠ 0 ∨ player_id_update_disabled env) then
          (.ok, st, [.testVideo])
        else if player_id = st.player_id then
          (.err .PlayerAlreadyUpdated, { st with last_update := now }, [.testVideo])
        else if ytdlpRequested then
          (.ok, { st with
                    player_id := player_id
                    signature_timestamp := ytdlpTs player_id
                    has_player := 0xFF
                    last_update := now }, [.testVideo])
        else
          match net.playerJS player_id with
          | none => (.err .CannotFetchPlayerJS, st, [.testVideo, .playerJS player_id])
          | some pjs =>
            match extract_from_player_js c eng pjs with
            | .panicked => (.panicked, st, [.testVideo, .playerJS player_id])
            | .regexFailed =>
              (.err .NsigRegexCompileFailed, st, [.testVideo, .playerJS player_id])
            | .okRes nsig_code sig_code sig_name ts =>
              (.ok, { player_id := player_id
                      nsig_function_code := nsig_code
                      sig_function_code := sig_code
                      sig_function_name := sig_name
                      signature_timestamp := ts
                      has_player := 0xFF
                      last_update := now }, [.testVideo, .playerJS player_id])

/-- One input tuple for a run in a sequence. -/
structure RunInput where
  env : Env
  net : Net
  ytdlpRequested : Bool
  ytdlpTs : Nat → Nat
  now : Nat

/-- The cache record after a sequence of `fetch_update` runs. -/
def runSeq (c : Consts) (eng : RegexEngine) (steps : List RunInput)
    (st : PlayerInfo) : PlayerInfo :=
  steps.foldl
    (fun s i => (fetch_update c eng i.env i.net i.ytdlpRequested i.ytdlpTs i.now s).2.1)
    st

/-! ### Concrete fixtures for counterexamples and witnesses -/

/-- Environment with no variables set (no override, updates enabled). -/
def envNone : Env := ⟨none, none⟩

/-- Environment forcing player id `0x5`. -/
def envForce5 : Env := ⟨some "5", none⟩

/-- Initial cache record (process start: Unset state). -/
def st0 : PlayerInfo :=
  { player_id := 0, nsig_function_code := "", sig_function_code := ""
    sig_function_name := "", signature_timestamp := 0, has_player := 0
    last_update := 0 }

/-- A populated cache record whose player id is `5`. -/
def st5 : PlayerInfo :=
  { player_id := 5, nsig_function_code := "N", sig_function_code := "S"
    sig_function_name := "SN", signature_timestamp := 1, has_player := 0xFF
    last_update := 3 }

/-- A network where both GETs succeed with fixed bodies. -/
def netFixed : Net := ⟨some "PAGE", fun _ => some "BUNDLE"⟩

/-- A network where every GET fails. -/
def netDown : Net := ⟨none, fun _ => none⟩

/-- An engine whose every pattern compiles and nothing matches. -/
def engNone : RegexEngine := ⟨fun _ => true, fun _ _ => none⟩

/-- Consts whose id pattern captures `"7"` and whose two nsig-array
candidates never match: the pattern-exhaustion scenario of the spec. -/
def cArrayMiss : Consts :=
  { regexPlayerId := fun _ => some (some "7")
    nsigFunctionArrays := [fun _ => none, fun _ => none]
    nsigFunctionEndings := []
    nsigFunctionName := "decrypt_nsig"
    regexSignatureFunction := fun _ => some (some "SF")
    regexHelperObjName := fun _ => some (some "HO")
    regexSignatureTimestamp := fun _ => some (some "123") }

/-- Consts whose single nsig-array candidate captures `(arr, 0)` and whose
single ending candidate will not match: the ending-exhaustion scenario. -/
def cEndMiss : Consts :=
  { regexPlayerId := fun _ => some (some "7")
    nsigFunctionArrays := [fun _ => some ⟨some "arr", some "0"⟩]
    nsigFunctionEndings := ["END"]
    nsigFunctionName := "decrypt_nsig"
    regexSignatureFunction := fun _ => some (some "SF")
    regexHelperObjName := fun _ => some (some "HO")
    regexSignatureTimestamp := fun _ => some (some "123") }

/-- Engine serving `cEndMiss`: the derived context matcher captures `NM`,
the ending pattern does not match, the signature-body and helper matchers
capture fixed bodies. -/
def engEndMiss : RegexEngine :=
  { compiles := fun _ => true
    captures := fun pat _ =>
      if pat = nsigContextPatternOf "arr" then some [some "W", some "NM"]
      else if pat = sigBodyPatternOf "SF" then some [some "SB"]
      else if pat = helperPatternOf "HO" then some [some "HB"]
      else none }

/-- Consts whose id pattern does not match the page at all. -/
def cIdMiss : Consts :=
  { regexPlayerId := fun _ => none
    nsigFunctionArrays := []
    nsigFunctionEndings := []
    nsigFunctionName := "decrypt_nsig"
    regexSignatureFunction := fun _ => some (some "SF")
    regexHelperObjName := fun _ => some (some "HO")
    regexSignatureTimestamp := fun _ => some (some "123") }

/-- `cEndMiss` with the signature-function pattern never matching. -/
def cSigMiss : Consts :=
  { regexPlayerId := fun _ => some (some "7")
    nsigFunctionArrays := [fun _ => some ⟨some "arr", some "0"⟩]
    nsigFunctionEndings := ["END"]
    nsigFunctionName := "decrypt_nsig"
    regexSignatureFunction := fun _ => none
    regexHelperObjName := fun _ => some (some "HO")
    regexSignatureTimestamp := fun _ => some (some "123") }

/-- Consts whose first nsig-array candidate never matches and whose second
captures `(n2, 1)`: the fallback-ordering scenario. -/
def cFallback : Consts :=
  { regexPlayerId := fun _ => some (some "7")
    nsigFunctionArrays :=
      [fun _ => none, fun _ => some ⟨some "n2", some "1"⟩]
    nsigFunctionEndings := []
    nsigFunctionName := "decrypt_nsig"
    regexSignatureFunction := fun _ => some (some "SF")
    regexHelperObjName := fun _ => some (some "HO")
    regexSignatureTimestamp := fun _ => some (some "123") }

/-! Fixtures for the fixup claims (C6). -/

/-- A bundle with a strict-mode-prologue global string-split declaration. -/
def bundleC6 : String := "'use strict';var g=\"a,b,c\".split(\",\");xyz"

/-- A bundle with no global declaration. -/
def bundlePlain : String := "nothing here"

/-- A raw nsig body whose guard returns the identifier `$b`: the removal
pattern's `return\s+\w+;` cannot match it (`\w` has no `$`). -/
def bodyDollarGuard : String :=
  "function decrypt_nsig(a)\x7bif(typeof $b===\"undefined\")return $b;return a\x7d"

/-- A raw nsig body whose guard uses the single-quoted `'undefined'`
variant (only removable when a global declaration was found). -/
def bodySingleQuote : String :=
  "function f(x)\x7bvar t=1;if(typeof x==='undefined')return x;return t\x7d"

/-- A raw nsig body whose guard uses the double-quoted variant. -/
def bodyDoubleQuote : String :=
  "function f(x)\x7bvar t=1;if(typeof x===\"undefined\")return x;return t\x7d"

/-- The header/needle `function decrypt_nsig(a){` of the canonical bodies. -/
def needleA : List Char := "function decrypt_nsig(a)\x7b".data

/-- The canonical guard-headed body text after the header: a
typeof-undefined early-return guard on the identifier `v`, then
`return a`. -/
def bodyTail (v : List Char) : List Char :=
  "if(typeof ".data
    ++ (v ++ ("===\"undefined\")return ".data ++ (v ++ (';' :: "return a\x7d".data))))

/-- The raw nsig body of the amended fixup claim, parameterized by the
guard identifier `v`: `function decrypt_nsig(a){if(typeof
<v>==="undefined")return <v>;return a}`. -/
def bodyOfGuardVar (v : List Char) : List Char := needleA ++ bodyTail v

/-- The expected fixup output for `bodyOfGuardVar`: parameter `a` kept,
global declaration first inside the body, guard gone. -/
def fixedOut : List Char :=
  "function decrypt_nsig(a)\x7bvar g=\"a,b,c\".split(\",\");return a\x7d".data

/-- The concrete prefix `function decrypt_nsig(a){var g="a,b,c".split(",")`
of the reassembled fixup result (header plus injected global declaration,
`;`-free). -/
def xcPrefix : List Char :=
  "function decrypt_nsig(a)\x7bvar g=\"a,b,c\".split(\",\")".data

/-! ### Helper lemmas -/

/-- A word character is not whitespace. -/
theorem word_not_ws {c : Char} (h : isWordChar c = true) : isWsChar c = false := by
  by_contra hne
  have hws : isWsChar c = true := by
    cases hx : isWsChar c
    · exact absurd hx hne
    · rfl
  simp only [isWsChar, Bool.or_eq_true, beq_iff_eq] at hws
  rcases hws with ((((h1 | h1) | h1) | h1) | h1) | h1 <;> subst h1 <;> simp [isWordChar] at h

/-- A word character is in the `[a-zA-Z0-9_$]` class. -/
theorem word_identDollar {c : Char} (h : isWordChar c = true) :
    isIdentDollarChar c = true := by
  simp only [isWordChar, Bool.or_eq_true] at h
  simp only [isIdentDollarChar, Bool.or_eq_true]
  tauto

/-- A class character is not a backslash. -/
theorem identDollar_ne_backslash {c : Char} (h : isIdentDollarChar c = true) :
    c ≠ '\\' := by
  intro he
  subst he
  simp [isIdentDollarChar] at h

/-- Matching a literal against itself followed by anything consumes it. -/
theorem lit_self (p r : List Char) : lit p (p ++ r) = some r := by
  induction p with
  | nil => rfl
  | cons c t ih => simp [lit, ih]

/-- `takeWhile`/`dropWhile` across a satisfying prefix followed by a
non-satisfying head. -/
theorem takeWhile_append_of (p : Char → Bool) (v rest : List Char)
    (hv : ∀ c ∈ v, p c = true) (hr : ∀ d, rest.head? = some d → p d = false) :
    (v ++ rest).takeWhile p = v ∧ (v ++ rest).dropWhile p = rest := by
  induction v with
  | nil =>
    cases rest with
    | nil => exact ⟨rfl, rfl⟩
    | cons d t =>
      have hd := hr d rfl
      simp [List.takeWhile_cons, List.dropWhile_cons, hd]
  | cons c t ih =>
    have hc := hv c (by simp)
    have iht := ih (fun x hx => hv x (by simp [hx]))
    simp [List.takeWhile_cons, List.dropWhile_cons, hc, iht.1, iht.2]

/-- `chars1` across a satisfying nonempty prefix followed by a
non-satisfying head. -/
theorem chars1_append (p : Char → Bool) (v : List Char) (d : Char) (rest : List Char)
    (hv1 : v ≠ []) (hv2 : ∀ c ∈ v, p c = true) (hd : p d = false) :
    chars1 p (v ++ d :: rest) = some (v, d :: rest) := by
  have h := takeWhile_append_of p v (d :: rest) hv2 (by intro x hx; cases hx; exact hd)
  unfold chars1
  rw [h.1, h.2]
  cases v with
  | nil => exact absurd rfl hv1
  | cons c t => rfl

/-- `dropWhile isWsChar` does not enter a word-character-headed list. -/
theorem dropWhile_ws_word (v R : List Char) (hv1 : v ≠ [])
    (hv2 : ∀ c ∈ v, isWordChar c = true) :
    (v ++ R).dropWhile isWsChar = v ++ R := by
  cases v with
  | nil => exact absurd rfl hv1
  | cons c t =>
    have := word_not_ws (hv2 c (by simp))
    simp [List.dropWhile_cons, this]

/-- Escaping then executing the escaped fragment consumes exactly the
original name. -/
theorem execEscLit_escape (v rest : List Char)
    (hv : ∀ c ∈ v, isIdentDollarChar c = true) :
    execEscLit (escapeDollar v) (v ++ rest) = some rest := by
  induction v with
  | nil => rfl
  | cons c t ih =>
    have hc := hv c (by simp)
    have iht := ih (fun x hx => hv x (by simp [hx]))
    by_cases hdol : c = '$'
    · subst hdol
      simp only [escapeDollar, List.foldr_cons, if_pos rfl, List.cons_append,
        List.nil_append]
      unfold execEscLit
      simpa using iht
    · have hbs := identDollar_ne_backslash hc
      simp only [escapeDollar, List.foldr_cons, if_neg hdol, List.singleton_append]
      unfold execEscLit
      simp [hbs, hdol]
      exact iht

/-- Escaping leaves no bare `$` metacharacter. -/
theorem noBareDollar_escape (v : List Char)
    (hv : ∀ c ∈ v, isIdentDollarChar c = true) :
    noBareDollar (escapeDollar v) = true := by
  induction v with
  | nil => rfl
  | cons c t ih =>
    have hc := hv c (by simp)
    have iht := ih (fun x hx => hv x (by simp [hx]))
    by_cases hdol : c = '$'
    · subst hdol
      simp only [escapeDollar, List.foldr_cons, if_pos rfl, List.cons_append,
        List.nil_append]
      unfold noBareDollar
      simpa using iht
    · have hbs := identDollar_ne_backslash hc
      simp only [escapeDollar, List.foldr_cons, if_neg hdol, List.singleton_append]
      unfold noBareDollar
      simp [hbs, hdol]
      exact iht

/-- The lazy capture absorbs exactly a `]`-free, newline-free span up to the
first `]` followed by a terminator. -/
theorem lazyCaptGo_spec (content : List Char) :
    ∀ acc rest, (∀ c ∈ content, c ≠ ']' ∧ c ≠ '\n') →
    lazyCaptGo acc (content ++ ']' :: ';' :: rest) = some (acc.reverse ++ content) := by
  induction content with
  | nil =>
    intro acc rest _
    simp [lazyCaptGo]
  | cons c cs ih =>
    intro acc rest h
    have hc := h c (by simp)
    simp only [List.cons_append]
    unfold lazyCaptGo
    simp only [if_neg hc.1, if_neg hc.2]
    rw [ih (c :: acc) rest (fun x hx => h x (by simp [hx]))]
    simp

/-- `(.+?)][;,]` over a nonempty `]`-free, newline-free span. -/
theorem lazyCapt_spec (content rest : List Char) (h1 : content ≠ [])
    (h2 : ∀ c ∈ content, c ≠ ']' ∧ c ≠ '\n') :
    lazyCapt (content ++ ']' :: ';' :: rest) = some content := by
  cases content with
  | nil => exact absurd rfl h1
  | cons c cs =>
    have hc := h2 c (by simp)
    simp only [List.cons_append]
    unfold lazyCapt
    simp only [if_neg hc.2]
    rw [lazyCaptGo_spec cs [c] rest (fun x hx => h2 x (by simp [hx]))]
    simp

/-- A list is a prefix of itself followed by anything. -/
theorem isPrefixOf_self_append (p r : List Char) : p.isPrefixOf (p ++ r) = true :=
  List.isPrefixOf_iff_prefix.mpr (List.prefix_append p r)

/-- Unfolding equation of `stripAllF` at positive fuel. -/
theorem stripAllF_succ (needle : List Char) (f : Nat) (c : Char) (t : List Char) :
    stripAllF needle (f + 1) (c :: t)
      = if needle.isPrefixOf (c :: t) && !needle.isEmpty then
          stripAllF needle f ((c :: t).drop needle.length)
        else c :: stripAllF needle f t := rfl

/-- Unfolding equation of `replaceAllGuardF` at positive fuel. -/
theorem replaceAllGuardF_succ (vn? : Option (List Char)) (f : Nat) (c : Char)
    (t : List Char) :
    replaceAllGuardF vn? (f + 1) (c :: t)
      = match guardAt vn? (c :: t) with
        | some rest => ';' :: replaceAllGuardF vn? f rest
        | none => c :: replaceAllGuardF vn? f t := rfl

/-- `stripAllF` is the identity at any fuel when the needle never occurs. -/
theorem stripAllF_not_occurs (needle : List Char) (l : List Char)
    (h : occursIn needle l = false) : ∀ f, stripAllF needle f l = l := by
  induction l with
  | nil => intro f; cases f <;> rfl
  | cons c t ih =>
    intro f
    unfold occursIn at h
    simp only [Bool.or_eq_false_iff] at h
    cases f with
    | zero => rfl
    | succ f =>
      unfold stripAllF
      simp only [h.1, Bool.false_and, Bool.false_eq_true, if_false]
      rw [ih h.2 f]

/-- `str::replace(needle, "")` on `needle ++ rest` removes the leading
occurrence and, when the needle never reoccurs, nothing else. -/
theorem stripAll_cons_append (needle rest : List Char) (h1 : needle ≠ [])
    (h2 : occursIn needle rest = false) :
    stripAll needle (needle ++ rest) = rest := by
  cases needle with
  | nil => exact absurd rfl h1
  | cons c n =>
    unfold stripAll
    have hlen : ((c :: n) ++ rest).length = ((n ++ rest).length) + 1 := by
      simp [List.length_append]
    rw [hlen, List.cons_append, stripAllF_succ]
    rw [show (c :: (n ++ rest)) = (c :: n) ++ rest from rfl]
    rw [isPrefixOf_self_append (c :: n) rest]
    simp only [List.isEmpty_cons, Bool.not_false, Bool.and_true, if_true]
    rw [List.drop_left (c :: n) rest]
    exact stripAllF_not_occurs (c :: n) rest h2 _

/-- The guard pattern starts with `;`: at any other head it fails. -/
theorem guardAt_ne_semi (vn? : Option (List Char)) (c : Char) (l : List Char)
    (h : c ≠ ';') : guardAt vn? (c :: l) = none := by
  unfold guardAt
  simp [lit, h]

/-- `replace_all` walks unchanged through a `;`-free prefix. -/
theorem replaceAllGuardF_append (vn? : Option (List Char)) (x : List Char)
    (hx : ∀ c ∈ x, c ≠ ';') : ∀ f y,
    replaceAllGuardF vn? (x.length + f) (x ++ y) = x ++ replaceAllGuardF vn? f y := by
  induction x with
  | nil => intro f y; simp
  | cons c t ih =>
    intro f y
    have hc := hx c (by simp)
    have hlen : (c :: t).length + f = ((t ++ y).length - y.length + f) + 1 := by
      simp [List.length_append]
      omega
    rw [hlen]
    simp only [List.cons_append, List.length_append, Nat.add_sub_cancel]
    rw [replaceAllGuardF_succ]
    rw [guardAt_ne_semi vn? c (t ++ y) hc]
    have := ih (fun x hx2 => hx x (by simp [hx2])) f y
    simp only [List.cons_append, this]

/-- `replace_all` is the identity on `;`-free text, at any fuel. -/
theorem replaceAllGuardF_no_semi (vn? : Option (List Char)) (l : List Char)
    (hl : ∀ c ∈ l, c ≠ ';') : ∀ f, replaceAllGuardF vn? f l = l := by
  induction l with
  | nil => intro f; cases f <;> rfl
  | cons c t ih =>
    intro f
    cases f with
    | zero => rfl
    | succ f =>
      unfold replaceAllGuardF
      rw [guardAt_ne_semi vn? c t (hl c (by simp))]
      rw [ih (fun x hx => hl x (by simp [hx])) f]

/-- Leftmost search for the guard skips a `;`-free prefix. -/
theorem findSome_guardAt_append (vn? : Option (List Char)) (x y : List Char)
    (hx : ∀ c ∈ x, c ≠ ';') :
    findSome (guardAt vn?) (x ++ y) = findSome (guardAt vn?) y := by
  induction x with
  | nil => rfl
  | cons c t ih =>
    have step : findSome (guardAt vn?) ((c :: t) ++ y)
        = findSome (guardAt vn?) (t ++ y) := by
      have hne := guardAt_ne_semi vn? c (t ++ y) (hx c (by simp))
      simp [findSome, hne]
    rw [step]
    exact ih (fun x hx2 => hx x (by simp [hx2]))

/-- Unfolding of `findSome` at a cons cell. -/
theorem findSome_cons {α : Type} (f : List Char → Option α) (c : Char)
    (t : List Char) :
    findSome f (c :: t)
      = match f (c :: t) with
        | some a => some a
        | none => findSome f t := by
  cases h : f (c :: t) <;> simp [findSome, h]

/-- The error branch of the nsig-array candidate loop is dead code: the
running index over a list of length `total - idx` never reaches `total`
(player.rs:175 compares `index == NSIG_FUNCTION_ARRAYS.len()`, an
off-by-one the spec's design notes flag; the indices enumerate
`0 .. len-1`). -/
theorem nsigArrayLoop_ne_errExit (cands : List (String → Option NsigArrayCaps)) :
    ∀ idx total pjs, idx + cands.length ≤ total → cands.length ≥ 1 →
    nsigArrayLoop cands idx total pjs ≠ .errExit := by
  induction cands with
  | nil => intro idx total pjs _ h2; simp at h2
  | cons p rest ih =>
    intro idx total pjs h1 _
    unfold nsigArrayLoop
    cases hp : p pjs with
    | some caps => simp
    | none =>
      have hne : idx ≠ total := by
        simp [List.length_cons] at h1
        omega
      simp only [if_neg hne]
      cases rest with
      | nil => simp [nsigArrayLoop]
      | cons q rest2 =>
        exact ih (idx + 1) total pjs (by simp at h1 ⊢; omega) (by simp)

/-- The error branch of the nsig function-ending loop is dead code for the
same off-by-one reason (player.rs:239). -/
theorem nsigEndingsLoop_ne_eErr (eng : RegexEngine) (pjs fnName : String)
    (endings : List String) :
    ∀ idx total acc, idx + endings.length ≤ total → endings.length ≥ 1 →
    nsigEndingsLoop eng pjs fnName endings idx total acc ≠ .eErr := by
  induction endings with
  | nil => intro idx total acc _ h2; simp at h2
  | cons e rest ih =>
    intro idx total acc h1 _
    unfold nsigEndingsLoop
    by_cases hc : eng.compiles (nsigEndingPatternOf fnName e)
    · simp only [if_pos hc]
      cases hcap : eng.captures (nsigEndingPatternOf fnName e) pjs with
      | some g => cases hg : groupGet g 1 <;> simp [hg]
      | none =>
        have hne : idx ≠ total := by
          simp [List.length_cons] at h1
          omega
        simp only [if_neg hne]
        cases rest with
        | nil => simp [nsigEndingsLoop]
        | cons q rest2 =>
          exact ih (idx + 1) total acc (by simp at h1 ⊢; omega) (by simp)
    · simp [if_neg hc]

/-- One run of `fetch_update` either leaves `has_player` unchanged or sets
it to the populated sentinel `0xFF`; it never assigns any other value. -/
theorem fetch_update_has_player (c : Consts) (eng : RegexEngine) (env : Env)
    (net : Net) (ytq : Bool) (yts : Nat → Nat) (now : Nat) (st : PlayerInfo) :
    (fetch_update c eng env net ytq yts now st).2.1.has_player = st.has_player
    ∨ (fetch_update c eng env net ytq yts now st).2.1.has_player = 0xFF := by
  unfold fetch_update
  repeat' split
  all_goals simp

/-- The guard tail matches `"undefined")return <v>;` for any word-character identifier `v`. -/
theorem guardAfterEq_matches (vn? : Option (List Char)) (v B : List Char)
    (hv1 : v ≠ []) (hv2 : ∀ c ∈ v, isWordChar c = true) :
    guardAfterEq vn? ("\"undefined\")return ".data ++ (v ++ (';' :: B))) = some B := by
  have h1 : undefAlt vn? (skipWs ("\"undefined\")return ".data ++ (v ++ (';' :: B))))
      = some (")return ".data ++ (v ++ (';' :: B))) := by
    cases vn? <;> rfl
  have h3 : lit [')'] (skipWs (")return ".data ++ (v ++ (';' :: B))))
      = some ("return ".data ++ (v ++ (';' :: B))) := rfl
  have h5 : lit ("return".data) (skipWs ("return ".data ++ (v ++ (';' :: B))))
      = some (' ' :: (v ++ (';' :: B))) := rfl
  have h6 : ws1 (' ' :: (v ++ (';' :: B)))
      = some ((v ++ (';' :: B)).dropWhile isWsChar) := rfl
  have h6b := dropWhile_ws_word v (';' :: B) hv1 hv2
  have h7 : chars1 isWordChar (v ++ ';' :: B) = some (v, ';' :: B) :=
    chars1_append isWordChar v ';' B hv1 hv2 (by decide)
  simp only [guardAfterEq, h1, Option.some_bind, h3, h5, h6, h6b, h7]
  rfl

/-- The guard middle matches ` <v>===` followed by the tail. -/
theorem guardAfterTypeof_matches (vn? : Option (List Char)) (v B : List Char)
    (hv1 : v ≠ []) (hv2 : ∀ c ∈ v, isWordChar c = true) :
    guardAfterTypeof vn?
      (' ' :: (v ++ ("===\"undefined\")return ".data ++ (v ++ (';' :: B)))))
      = some B := by
  have h1 : ws1 (' ' :: (v ++ ("===\"undefined\")return ".data ++ (v ++ (';' :: B)))))
      = some ((v ++ ("===\"undefined\")return ".data ++ (v ++ (';' :: B)))).dropWhile isWsChar) := rfl
  have h2 := dropWhile_ws_word v ("===\"undefined\")return ".data ++ (v ++ (';' :: B))) hv1 hv2
  have hR : (v ++ ("===\"undefined\")return ".data ++ (v ++ (';' :: B))))
      = v ++ ('=' :: ("==\"undefined\")return ".data ++ (v ++ (';' :: B)))) := rfl
  have h3 : chars1 isIdentDollarChar
      (v ++ ('=' :: ("==\"undefined\")return ".data ++ (v ++ (';' :: B)))))
      = some (v, '=' :: ("==\"undefined\")return ".data ++ (v ++ (';' :: B)))) :=
    chars1_append isIdentDollarChar v '=' _ hv1
      (fun c hc => word_identDollar (hv2 c hc)) (by decide)
  have h5 : lit ['=', '=']
      (skipWs ('=' :: ("==\"undefined\")return ".data ++ (v ++ (';' :: B)))))
      = some ('=' :: ("\"undefined\")return ".data ++ (v ++ (';' :: B)))) := rfl
  have h6 : (lit ['='] ('=' :: ("\"undefined\")return ".data ++ (v ++ (';' :: B))))).getD
        ('=' :: ("\"undefined\")return ".data ++ (v ++ (';' :: B))))
      = "\"undefined\")return ".data ++ (v ++ (';' :: B)) := rfl
  simp only [guardAfterTypeof, h1, Option.some_bind]
  simp only [h2]
  simp only [hR]
  simp only [h3, Option.some_bind]
  simp only [h5, Option.some_bind]
  simp only [h6]
  exact guardAfterEq_matches vn? v B hv1 hv2

/-- The full guard-removal pattern matches the canonical guard
`; if(typeof <v>==="undefined")return <v>;` for any nonempty
word-character identifier `v`, leaving exactly the rest `B`. -/
theorem guardAt_matches (vn? : Option (List Char)) (v B : List Char)
    (hv1 : v ≠ []) (hv2 : ∀ c ∈ v, isWordChar c = true) :
    guardAt vn?
      ("; if(typeof ".data ++ (v ++ ("===\"undefined\")return ".data ++ (v ++ (';' :: B)))))
      = some B := by
  have h : guardAt vn?
      ("; if(typeof ".data ++ (v ++ ("===\"undefined\")return ".data ++ (v ++ (';' :: B)))))
      = guardAfterTypeof vn?
        (' ' :: (v ++ ("===\"undefined\")return ".data ++ (v ++ (';' :: B))))) := rfl
  rw [h]
  exact guardAfterTypeof_matches vn? v B hv1 hv2

/-- On the canonical guard-headed body (any nonempty word-character guard
identifier `v`, header not reoccurring in the body), the fixup injects the
bundle's global declaration right after the rebuilt header and deletes the
guard, yielding exactly `fixedOut`. -/
theorem fixup_canonical (v : List Char) (hv1 : v ≠ [])
    (hv2 : ∀ c ∈ v, isWordChar c = true)
    (hocc : occursIn needleA (bodyTail v) = false) :
    fixup_nsig_jscode (bodyOfGuardVar v) bundleC6.data = fixedOut := by
  have hpar : findSome paramAt (bodyOfGuardVar v) = some ['a'] := rfl
  have hglob : extract_player_js_global_var bundleC6.data
      = some ("var g=\"a,b,c\".split(\",\")".data, ['g'], "\"a,b,c\".split(\",\")".data) := rfl
  have hneedle : "function decrypt_nsig(".data ++ ['a'] ++ [')', '\x7b'] = needleA := rfl
  have hstrip : stripAll needleA (bodyOfGuardVar v) = bodyTail v := by
    unfold bodyOfGuardVar
    exact stripAll_cons_append needleA (bodyTail v) (by decide) hocc
  simp only [fixup_nsig_jscode, hpar, Option.getD_some, hglob, hneedle, hstrip]
  have hres : needleA ++ "var g=\"a,b,c\".split(\",\")".data ++ "; ".data ++ bodyTail v
      = xcPrefix ++ (';' :: (' ' :: bodyTail v)) := rfl
  rw [hres]
  have hXfree : ∀ c ∈ xcPrefix, c ≠ ';' := by decide
  have hguard : guardAt (some ['g']) (';' :: (' ' :: bodyTail v))
      = some ("return a\x7d".data) :=
    guardAt_matches (some ['g']) v ("return a\x7d".data) hv1 hv2
  have hfind : findSome (guardAt (some ['g'])) (';' :: (' ' :: bodyTail v))
      = some ("return a\x7d".data) := by
    rw [findSome_cons, hguard]
  rw [findSome_guardAt_append (some ['g']) xcPrefix (';' :: (' ' :: bodyTail v)) hXfree]
  rw [hfind]
  simp only [Option.isSome_some, if_true]
  unfold replaceAllGuard
  rw [List.length_append]
  rw [replaceAllGuardF_append (some ['g']) xcPrefix hXfree]
  simp only [List.length_cons]
  rw [replaceAllGuardF_succ, hguard]
  show xcPrefix
      ++ (';' :: replaceAllGuardF (some ['g']) ((bodyTail v).length + 1)
            ("return a\x7d".data))
    = fixedOut
  rw [replaceAllGuardF_no_semi (some ['g']) ("return a\x7d".data) (by decide)
    ((bodyTail v).length + 1)]
  rfl

/-! ### Claim theorems -/

/-- C1: the claim says that a bundle matching no nsig-array candidate (and
no nsig-ending candidate) makes `fetch_update` return the typed failure
`NsigRegexCompileFailed` with the cache unmodified.  The code violates
this: the exhaustion guards compare the running index against the list
LENGTH (player.rs:175, 239), which a zero-based index never reaches
(`nsigArrayLoop_ne_errExit`, `nsigEndingsLoop_ne_eErr`), so (a) array-list
exhaustion falls out of the loop with `None` and panics at the
`unwrap` of player.rs:188 instead of returning the typed failure, and
(b) ending-list exhaustion falls through silently and the run COMMITS a
cache record whose nsig code is the bare accumulator
`"function decrypt_nsig"` and reports success. -/
theorem c1_pattern_exhaustion_divergence :
    (fetch_update cArrayMiss engNone envNone netFixed false (fun _ => 0) 5 st0).1
      = .panicked
    ∧ (fetch_update cArrayMiss engNone envNone netFixed false (fun _ => 0) 5 st0).1
      ≠ .err .NsigRegexCompileFailed
    ∧ (fetch_update cArrayMiss engNone envNone netFixed false (fun _ => 0) 5 st0).2.1
      = st0
    ∧ nsigArrayLoop cArrayMiss.nsigFunctionArrays 0 2 "BUNDLE" = .exhausted
    ∧ (fetch_update cEndMiss engEndMiss envNone netFixed false (fun _ => 0) 5 st0).1
      = .ok
    ∧ (fetch_update cEndMiss engEndMiss envNone netFixed false (fun _ => 0) 5
        st0).2.1.nsig_function_code = "function decrypt_nsig"
    ∧ (fetch_update cEndMiss engEndMiss envNone netFixed false (fun _ => 0) 5 st0).2.1
      ≠ st0 := by
  refine ⟨rfl, by decide, rfl, rfl, rfl, rfl, by decide⟩

/-- C4: the claim says every run ends in success or one of the five typed
outcomes, that an identifier-pattern non-match yields
`CannotMatchPlayerID`, and that a missing structural match in
signature-function/helper/timestamp extraction is a typed outcome, never
an abort.  The code violates this: `REGEX_PLAYER_ID.captures(..).unwrap()`
(player.rs:113) panics when the pattern does not match at all
(`CannotMatchPlayerID` is returned only in the sub-case where the pattern
matched but capture group 1 did not participate), and the signature,
helper and timestamp extractions `unwrap` their matches
(player.rs:257-325), aborting the run. -/
theorem c4_missing_match_aborts :
    fetch_update cIdMiss engNone envNone netFixed false (fun _ => 0) 5 st0
      = (.panicked, st0, [.testVideo])
    ∧ cIdMiss.regexPlayerId "PAGE" = none
    ∧ (fetch_update cIdMiss engNone envNone netFixed false (fun _ => 0) 5 st0).1
      ≠ .err .CannotMatchPlayerID
    ∧ (fetch_update cSigMiss engEndMiss envNone netFixed false (fun _ => 0) 5 st0).1
      = .panicked := by
  refine ⟨rfl, rfl, by decide, rfl⟩

/-- C2 counterexample: the claim says that with a non-zero override no
network request to the reference page is made.  The code fetches the
reference page unconditionally (player.rs:103) BEFORE reading the
override (player.rs:111): with the override `0x5` set, the request list
still contains the reference-page GET, and a transport failure of that
GET still fails the whole run with `CannotFetchTestVideo`. -/
theorem c2_counterexample_reference_page_fetched :
    player_id_forced envForce5 = some 5
    ∧ (fetch_update cArrayMiss engNone envForce5 netFixed true (fun _ => 77) 9
        st0).2.2 = [.testVideo]
    ∧ Request.testVideo ∈ (fetch_update cArrayMiss engNone envForce5 netFixed true
        (fun _ => 77) 9 st0).2.2
    ∧ (fetch_update cArrayMiss engNone envForce5 netDown true (fun _ => 77) 9 st0).1
      = .err .CannotFetchTestVideo := by
  refine ⟨rfl, rfl, by decide, rfl⟩

/-- C5 counterexample: the claim says every run whose resolved identifier
equals the cached `player_id` refreshes `last_update` and reports
`PlayerAlreadyUpdated`.  With the cache populated and the override `0x5`
active (resolved identifier 5 = cached 5), the skip branch of
player.rs:126-130 returns success FIRST: no field changes (with `now = 9`,
`last_update` stays 3) and no `PlayerAlreadyUpdated` is reported. -/
theorem c5_counterexample_skip_beats_already_updated :
    player_id_forced envForce5 = some 5
    ∧ st5.player_id = 5
    ∧ fetch_update cArrayMiss engNone envForce5 netFixed true (fun _ => 77) 9 st5
      = (.ok, st5, [.testVideo])
    ∧ (fetch_update cArrayMiss engNone envForce5 netFixed true (fun _ => 77) 9
        st5).2.1.last_update ≠ 9
    ∧ (fetch_update cArrayMiss engNone envForce5 netFixed true (fun _ => 77) 9 st5).1
      ≠ .err .PlayerAlreadyUpdated := by
  refine ⟨rfl, rfl, rfl, by decide, by decide⟩

/-- C6 counterexample: the claim says the fixup output contains no residual
typeof-undefined early-return guard clause.  With the bundle containing a
global declaration and a body whose guard returns the identifier `$b`, the
removal pattern's `return\s+\w+;` cannot match (`\w` has no `$`,
player.rs:81), so no fixup happens and the output still contains a guard
clause of the spec's own shape (section 4.5 step 3). -/
theorem c6_counterexample_dollar_guard_survives :
    extract_player_js_global_var bundleC6.data ≠ none
    ∧ specHasTypeofGuard bodyDollarGuard.data = true
    ∧ specHasTypeofGuard (fixup_nsig_jscode bodyDollarGuard.data bundleC6.data)
      = true := by
  refine ⟨by decide, rfl, rfl⟩

/-- C6 amended: on bodies whose guard is reachable by the removal pattern —
preceded by a statement terminator (the fixup's own injected `; ` provides
one for a body-leading guard) and returning a `\w`-identifier (no `$`) —
and whose header does not reoccur in the body, the fixup output contains
the bundle's global declaration textually before the original body's
statements, rebinds the parameter to the original name, and contains no
residual typeof-undefined guard; guards returning `$`-identifiers are not
removed (see the counterexample), and with no global declaration in the
bundle only the simpler double-quoted `"undefined"` variant is removed
(the single-quoted variant survives). -/
theorem c6_amended_fixup (v : List Char) (hv1 : v ≠ [])
    (hv2 : ∀ c ∈ v, isWordChar c = true)
    (hocc : occursIn needleA (bodyTail v) = false) :
    fixup_nsig_jscode (bodyOfGuardVar v) bundleC6.data = fixedOut
    ∧ fixedOut = needleA ++ ("var g=\"a,b,c\".split(\",\")".data
        ++ (';' :: "return a\x7d".data))
    ∧ specHasTypeofGuard fixedOut = false
    ∧ fixup_nsig_jscode bodySingleQuote.data bundlePlain.data = bodySingleQuote.data
    ∧ fixup_nsig_jscode bodyDoubleQuote.data bundlePlain.data
      = "function f(x)\x7bvar t=1;return t\x7d".data :=
  ⟨fixup_canonical v hv1 hv2 hocc, rfl, rfl, rfl, rfl⟩

/-- C6 amended, witness at the concrete guard identifier `qq`. -/
theorem c6_amended_fixup_witness :
    fixup_nsig_jscode (bodyOfGuardVar "qq".data) bundleC6.data = fixedOut
    ∧ fixedOut = needleA ++ ("var g=\"a,b,c\".split(\",\")".data
        ++ (';' :: "return a\x7d".data))
    ∧ specHasTypeofGuard fixedOut = false
    ∧ fixup_nsig_jscode bodySingleQuote.data bundlePlain.data = bodySingleQuote.data
    ∧ fixup_nsig_jscode bodyDoubleQuote.data bundlePlain.data
      = "function f(x)\x7bvar t=1;return t\x7d".data :=
  c6_amended_fixup ("qq".data) (by decide) (by decide) (by decide)

/-- C3: on every run that returns one of the four fatal outcomes
(`CannotFetchTestVideo`, `CannotMatchPlayerID`, `CannotFetchPlayerJS`,
`NsigRegexCompileFailed`), the final cache record equals the initial one
in every field: all fatal return paths of player.rs:101-336 occur before
any cache mutation, so no partial commit is observable. -/
theorem c3_no_partial_commit_on_fatal (c : Consts) (eng : RegexEngine) (env : Env)
    (net : Net) (ytq : Bool) (yts : Nat → Nat) (now : Nat) (st : PlayerInfo)
    (out : Outcome) (fin : PlayerInfo) (reqs : List Request)
    (h : fetch_update c eng env net ytq yts now st = (out, fin, reqs))
    (hf : out = .err .CannotFetchTestVideo ∨ out = .err .CannotMatchPlayerID
        ∨ out = .err .CannotFetchPlayerJS ∨ out = .err .NsigRegexCompileFailed) :
    fin = st := by
  unfold fetch_update at h
  repeat' split at h
  all_goals (rcases hf with hf | hf | hf | hf <;> simp_all)

/-- C3 witness: a concrete run failing with `CannotFetchTestVideo` leaves
the populated cache record `st5` untouched. -/
theorem c3_no_partial_commit_witness :
    (fetch_update cArrayMiss engNone envNone netDown false (fun _ => 0) 5 st5).2.1
      = st5 :=
  c3_no_partial_commit_on_fatal cArrayMiss engNone envNone netDown false
    (fun _ => 0) 5 st5 (.err .CannotFetchTestVideo)
    ((fetch_update cArrayMiss engNone envNone netDown false (fun _ => 0) 5 st5).2.1)
    [.testVideo] rfl (Or.inl rfl)

theorem c9_has_player_monotone (c : Consts) (eng : RegexEngine)
    (steps : List RunInput) (st : PlayerInfo) :
    ((runSeq c eng steps st).has_player = st.has_player
      ∨ (runSeq c eng steps st).has_player = 0xFF)
    ∧ (st.has_player = 0xFF → (runSeq c eng steps st).has_player = 0xFF) := by
  induction steps generalizing st with
  | nil => simp [runSeq]
  | cons i t ih =>
    have hstep := fetch_update_has_player c eng i.env i.net i.ytdlpRequested
      i.ytdlpTs i.now st
    have hfold : runSeq c eng (i :: t) st
        = runSeq c eng t
            ((fetch_update c eng i.env i.net i.ytdlpRequested i.ytdlpTs i.now st).2.1) := by
      simp [runSeq]
    rw [hfold]
    set st' := (fetch_update c eng i.env i.net i.ytdlpRequested i.ytdlpTs i.now st).2.1
    have iht := ih st'
    constructor
    · rcases hstep with h1 | h1
      · rcases iht.1 with h2 | h2
        · left; rw [h2, h1]
        · right; exact h2
      · right; exact iht.2 h1
    · intro hst
      rcases hstep with h1 | h1
      · exact iht.2 (by rw [h1, hst])
      · exact iht.2 h1


/-- C9 witness: a populated record stays populated across a concrete
two-run sequence. -/
theorem c9_has_player_monotone_witness :
    ((runSeq cArrayMiss engNone
        [⟨envForce5, netFixed, true, fun _ => 77, 9⟩,
         ⟨envNone, netDown, false, fun _ => 0, 11⟩] st5).has_player
          = st5.has_player
      ∨ (runSeq cArrayMiss engNone
        [⟨envForce5, netFixed, true, fun _ => 77, 9⟩,
         ⟨envNone, netDown, false, fun _ => 0, 11⟩] st5).has_player = 0xFF)
    ∧ (runSeq cArrayMiss engNone
        [⟨envForce5, netFixed, true, fun _ => 77, 9⟩,
         ⟨envNone, netDown, false, fun _ => 0, 11⟩] st5).has_player = 0xFF :=
  ⟨(c9_has_player_monotone cArrayMiss engNone _ st5).1,
   (c9_has_player_monotone cArrayMiss engNone _ st5).2 rfl⟩

theorem c5_amended_already_updated (c : Consts) (eng : RegexEngine) (env : Env)
    (net : Net) (ytq : Bool) (yts : Nat → Nat) (now : Nat) (st : PlayerInfo)
    (r : String) (pf n : Nat)
    (h1 : net.testVideoPage = some r)
    (h2 : player_id_forced env = some pf)
    (h3 : resolve_from c pf r = .resolved n)
    (h4 : ¬(st.has_player = 0xFF ∧ (pf ≠ 0 ∨ player_id_update_disabled env = true)))
    (h5 : n = st.player_id) :
    fetch_update c eng env net ytq yts now st
      = (.err .PlayerAlreadyUpdated, { st with last_update := now }, [.testVideo]) := by
  unfold fetch_update
  simp only [h1, h2, h3, if_neg h4, if_pos h5]

/-- C10: when the delegated-decoding collaborator is requested and the
resolved identifier differs from the cached one, the commit of
player.rs:144-152 updates `player_id`, `signature_timestamp`,
`has_player` and `last_update` and leaves `nsig_function_code`,
`sig_function_code` and `sig_function_name` at their previous values, so a
reader can observe the new `player_id` paired with code fields extracted
for an earlier identifier. -/
theorem c10_ytdlp_frame (c : Consts) (eng : RegexEngine) (env : Env)
    (net : Net) (yts : Nat → Nat) (now : Nat) (st : PlayerInfo)
    (r : String) (pf n : Nat)
    (h1 : net.testVideoPage = some r)
    (h2 : player_id_forced env = some pf)
    (h3 : resolve_from c pf r = .resolved n)
    (h4 : ¬(st.has_player = 0xFF ∧ (pf ≠ 0 ∨ player_id_update_disabled env = true)))
    (h5 : n ≠ st.player_id) :
    fetch_update c eng env net true yts now st
      = (.ok,
         { st with
             player_id := n
             signature_timestamp := yts n
             has_player := 0xFF
             last_update := now },
         [.testVideo])
    ∧ (fetch_update c eng env net true yts now st).2.1.nsig_function_code
      = st.nsig_function_code
    ∧ (fetch_update c eng env net true yts now st).2.1.sig_function_code
      = st.sig_function_code
    ∧ (fetch_update c eng env net true yts now st).2.1.sig_function_name
      = st.sig_function_name
    ∧ (fetch_update c eng env net true yts now st).2.1.player_id = n := by
  have hmain : fetch_update c eng env net true yts now st
      = (.ok,
         { st with
             player_id := n
             signature_timestamp := yts n
             has_player := 0xFF
             last_update := now },
         [.testVideo]) := by
    unfold fetch_update
    simp only [h1, h2, h3, if_neg h4, if_neg h5]
    simp
  exact ⟨hmain, by rw [hmain], by rw [hmain], by rw [hmain], by rw [hmain]⟩


/-- C5 amended, witness: cache not populated, resolved identifier 7 equals
the cached 7. -/
theorem c5_amended_already_updated_witness :
    fetch_update cArrayMiss engNone envNone netFixed false (fun _ => 0) 9
        { st0 with player_id := 7 }
      = (.err .PlayerAlreadyUpdated,
         { { st0 with player_id := 7 } with last_update := 9 }, [.testVideo]) :=
  c5_amended_already_updated cArrayMiss engNone envNone netFixed false
    (fun _ => 0) 9 { st0 with player_id := 7 } "PAGE" 0 7 rfl rfl rfl
    (by decide) rfl

/-- C10 witness: ytdlp path on the populated record `st5`, resolved
identifier 7 differs from the cached 5; code fields stay `N`, `S`, `SN`. -/
theorem c10_ytdlp_frame_witness :
    fetch_update cArrayMiss engNone envNone netFixed true (fun k => k + 70) 9 st5
      = (.ok,
         { st5 with
             player_id := 7
             signature_timestamp := 77
             has_player := 0xFF
             last_update := 9 },
         [.testVideo])
    ∧ (fetch_update cArrayMiss engNone envNone netFixed true (fun k => k + 70) 9
        st5).2.1.nsig_function_code = st5.nsig_function_code
    ∧ (fetch_update cArrayMiss engNone envNone netFixed true (fun k => k + 70) 9
        st5).2.1.sig_function_code = st5.sig_function_code
    ∧ (fetch_update cArrayMiss engNone envNone netFixed true (fun k => k + 70) 9
        st5).2.1.sig_function_name = st5.sig_function_name
    ∧ (fetch_update cArrayMiss engNone envNone netFixed true (fun k => k + 70) 9
        st5).2.1.player_id = 7 :=
  c10_ytdlp_frame cArrayMiss engNone envNone netFixed (fun k => k + 70) 9 st5
    "PAGE" 0 7 rfl rfl rfl (by decide) (by decide)

theorem c2_amended_override (c : Consts) (eng : RegexEngine) (env : Env)
    (n : Nat) (ytq : Bool) (yts : Nat → Nat) (now : Nat) (st : PlayerInfo)
    (h1 : player_id_forced env = some n) (h2 : n ≠ 0) :
    (∀ net : Net, ∀ r1 r2 : String,
      fetch_update c eng env { net with testVideoPage := some r1 } ytq yts now st
        = fetch_update c eng env { net with testVideoPage := some r2 } ytq yts now st)
    ∧ (∀ r : String, resolve_player_id c env r = .resolved n)
    ∧ (∀ net : Net,
        Request.testVideo ∈ (fetch_update c eng env net ytq yts now st).2.2) := by
  have hres : ∀ r : String, resolve_from c n r = .resolved n := by
    intro r
    unfold resolve_from
    rw [if_pos h2]
  refine ⟨?_, ?_, ?_⟩
  · intro net r1 r2
    unfold fetch_update
    simp only [h1, hres]
  · intro r
    unfold resolve_player_id
    rw [h1]
    exact hres r
  · intro net
    unfold fetch_update
    cases hnet : net.testVideoPage with
    | none => simp
    | some r =>
      simp only [h1, hres]
      repeat' split
      all_goals simp


/-- C2 amended, witness: override `0x5`, two distinct page bodies, and the
reference-page request present. -/
theorem c2_amended_override_witness :
    fetch_update cArrayMiss engNone envForce5
        { netFixed with testVideoPage := some "X" } true (fun _ => 77) 9 st0
      = fetch_update cArrayMiss engNone envForce5
        { netFixed with testVideoPage := some "Y" } true (fun _ => 77) 9 st0
    ∧ resolve_player_id cArrayMiss envForce5 "Z" = .resolved 5
    ∧ Request.testVideo ∈ (fetch_update cArrayMiss engNone envForce5 netDown true
        (fun _ => 77) 9 st0).2.2 :=
  ⟨(c2_amended_override cArrayMiss engNone envForce5 5 true (fun _ => 77) 9 st0
      rfl (by decide)).1 netFixed "X" "Y",
   (c2_amended_override cArrayMiss engNone envForce5 5 true (fun _ => 77) 9 st0
      rfl (by decide)).2.1 "Z",
   (c2_amended_override cArrayMiss engNone envForce5 5 true (fun _ => 77) 9 st0
      rfl (by decide)).2.2 netDown⟩

theorem c7_fallback_second_candidate (c : Consts) (eng : RegexEngine) (pjs : String)
    (p1 p2 : String → Option NsigArrayCaps) (rest : List (String → Option NsigArrayCaps))
    (nm ixs : String) (ixn : Nat)
    (harr : c.nsigFunctionArrays = p1 :: p2 :: rest)
    (h1 : p1 pjs = none)
    (h2 : p2 pjs = some ⟨some nm, some ixs⟩)
    (h3 : parseDecU64 ixs = some ixn) :
    nsigArrayLoop c.nsigFunctionArrays 0 c.nsigFunctionArrays.length pjs
      = .found ⟨some nm, some ixs⟩
    ∧ extract_from_player_js c eng pjs = extract_after_array c eng pjs nm ixn := by
  have hloop : nsigArrayLoop (p1 :: p2 :: rest) 0 (p1 :: p2 :: rest).length pjs
      = .found ⟨some nm, some ixs⟩ := by
    unfold nsigArrayLoop
    simp only [h1]
    rw [if_neg (by simp)]
    unfold nsigArrayLoop
    simp only [h2]
  constructor
  · rw [harr]
    exact hloop
  · unfold extract_from_player_js
    rw [harr]
    simp only [hloop, h3]


/-- C7 witness: concrete candidate list whose first member never matches
and whose second captures `(n2, 1)`. -/
theorem c7_fallback_second_candidate_witness :
    nsigArrayLoop cFallback.nsigFunctionArrays 0 cFallback.nsigFunctionArrays.length
        "B" = .found ⟨some "n2", some "1"⟩
    ∧ extract_from_player_js cFallback engNone "B"
      = extract_after_array cFallback engNone "B" "n2" 1 :=
  c7_fallback_second_candidate cFallback engNone "B" (fun _ => none)
    (fun _ => some ⟨some "n2", some "1"⟩) [] "n2" "1" 1 rfl rfl rfl rfl
/-- The signature-body lazy span absorbs exactly a `}`-free, newline-free
span up to the closing `}`. -/
theorem lazyBraceGo_spec (bs rest : List Char)
    (h : ∀ c ∈ bs, c ≠ '\x7d' ∧ c ≠ '\n') :
    lazyBraceGo (bs ++ ('\x7d' :: rest)) = some rest := by
  induction bs with
  | nil => rfl
  | cons d ds ih =>
    have hd := h d (by simp)
    have hstep : lazyBraceGo ((d :: ds) ++ ('\x7d' :: rest))
        = if d = '\x7d' then some (ds ++ ('\x7d' :: rest))
          else if d = '\n' then none else lazyBraceGo (ds ++ ('\x7d' :: rest)) := rfl
    rw [hstep, if_neg hd.1, if_neg hd.2]
    exact ih (fun x hx => h x (by simp [hx]))

/-- `.+?\}` over a nonempty `}`-free, newline-free body. -/
theorem lazyBrace_spec (body rest : List Char) (h1 : body ≠ [])
    (h2 : ∀ c ∈ body, c ≠ '\x7d' ∧ c ≠ '\n') :
    lazyBrace (body ++ ('\x7d' :: rest)) = some rest := by
  cases body with
  | nil => exact absurd rfl h1
  | cons c bs =>
    have hc := h2 c (by simp)
    have hstep : lazyBrace ((c :: bs) ++ ('\x7d' :: rest))
        = if c = '\n' then none else lazyBraceGo (bs ++ ('\x7d' :: rest)) := rfl
    rw [hstep, if_neg hc.2]
    exact lazyBraceGo_spec bs rest (fun x hx => h2 x (by simp [hx]))

/-- The helper-object lazy span absorbs exactly a `}`-free span up to the
first `}};`. -/
theorem lazyToBracesGo_spec (is rest : List Char)
    (h : ∀ c ∈ is, c ≠ '\x7d') :
    lazyToBracesGo (is ++ ('\x7d' :: ('\x7d' :: (';' :: rest)))) = some rest := by
  induction is with
  | nil => rfl
  | cons d ds ih =>
    have hd := h d (by simp)
    have hstep : lazyToBracesGo ((d :: ds) ++ ('\x7d' :: ('\x7d' :: (';' :: rest))))
        = if d = '\x7d' then
            match ds ++ ('\x7d' :: ('\x7d' :: (';' :: rest))) with
            | '\x7d' :: ';' :: t2 => some t2
            | _ => lazyToBracesGo (ds ++ ('\x7d' :: ('\x7d' :: (';' :: rest))))
          else lazyToBracesGo (ds ++ ('\x7d' :: ('\x7d' :: (';' :: rest)))) := rfl
    rw [hstep, if_neg hd]
    exact ih (fun x hx => h x (by simp [hx]))

/-- `(?:.|\n)+?\}\};` over a nonempty `}`-free interior. -/
theorem lazyToBraces_spec (inner rest : List Char) (h1 : inner ≠ [])
    (h2 : ∀ c ∈ inner, c ≠ '\x7d') :
    lazyToBraces (inner ++ ('\x7d' :: ('\x7d' :: (';' :: rest)))) = some rest := by
  cases inner with
  | nil => exact absurd rfl h1
  | cons c is =>
    have hstep : lazyToBraces ((c :: is) ++ ('\x7d' :: ('\x7d' :: (';' :: rest))))
        = lazyToBracesGo (is ++ ('\x7d' :: ('\x7d' :: (';' :: rest)))) := rfl
    rw [hstep]
    exact lazyToBracesGo_spec is rest (fun x hx => h2 x (by simp [hx]))
/-- C8: a captured name over `[a-zA-Z0-9_$]` passed through the escaping
step `.replace("$", "\\$")` yields a well-formed literal fragment (no bare
`$` anchor, so matcher construction cannot misparse it), and at EVERY
derived-matcher site the pattern built in player.rs embeds exactly that
escaped fragment: the array-context pattern (player.rs:197-200), the
ending pattern (player.rs:229-234), the signature-body pattern
(player.rs:264-266) and the helper-object pattern (player.rs:285-288).
Moreover each of the three fully concrete derived matchers still matches
the declaration its name was captured from: the array context
`var <name>=[<content>];`, the signature body
`<name>=function(<param>){<body>}`, and the helper object
`var <name>={<inner>}};`. -/
theorem c8_scoped_escaping (name content rest param body rest2 inner rest3 : List Char) (e : String)
    (h2 : ∀ c ∈ name, isIdentDollarChar c = true)
    (h3 : content ≠ []) (h4 : ∀ c ∈ content, c ≠ ']' ∧ c ≠ '\n')
    (hp1 : param ≠ []) (hp2 : ∀ c ∈ param, isWordChar c = true)
    (hb1 : body ≠ []) (hb2 : ∀ c ∈ body, c ≠ '\x7d' ∧ c ≠ '\n')
    (hi1 : inner ≠ []) (hi2 : ∀ c ∈ inner, c ≠ '\x7d') :
    noBareDollar (escapeDollar name) = true
    ∧ (nsigContextPatternOf ⟨name⟩).data
      = "var ".data ++ (escapeDollar name ++ "\\s*=\\s*\\[(.+?)][;,]".data)
    ∧ arrayContextAt (escapeDollar name)
        ("var ".data ++ (name ++ ('=' :: ('[' :: (content ++ (']' :: (';' :: rest)))))))
      = some content
    ∧ (nsigEndingPatternOf ⟨name⟩ e).data
      = "(?ms)".data ++ (escapeDollar name ++ e.data)
    ∧ (sigBodyPatternOf ⟨name⟩).data
      = escapeDollar name ++ "=function\\([a-zA-Z0-9_]+\\)\\\x7b.+?\\\x7d".data
    ∧ sigBodyAt (escapeDollar name)
        (name ++ ("=function(".data
          ++ (param ++ (')' :: ('\x7b' :: (body ++ ('\x7d' :: rest2)))))))
      = some rest2
    ∧ (helperPatternOf ⟨name⟩).data
      = "(var ".data ++ (escapeDollar name ++ "=\\\x7b(?:.|\\n)+?\\\x7d\\\x7d;)".data)
    ∧ helperAt (escapeDollar name)
        ("var ".data ++ (name
          ++ ('=' :: ('\x7b' :: (inner ++ ('\x7d' :: ('\x7d' :: (';' :: rest3))))))))
      = some rest3 := by
  refine ⟨noBareDollar_escape name h2, ?_, ?_, ?_, ?_, ?_, ?_, ?_⟩
  · simp [nsigContextPatternOf, escapeDollarStr]
  · have he := execEscLit_escape name ('=' :: ('[' :: (content ++ (']' :: (';' :: rest))))) h2
    have hlz := lazyCapt_spec content rest h3 h4
    have hs1 : skipWs ('=' :: ('[' :: (content ++ (']' :: (';' :: rest)))))
        = '=' :: ('[' :: (content ++ (']' :: (';' :: rest)))) := rfl
    have hs2 : skipWs ('[' :: (content ++ (']' :: (';' :: rest))))
        = '[' :: (content ++ (']' :: (';' :: rest))) := rfl
    simp only [arrayContextAt, lit_self, Option.some_bind, he, hs1, hs2]
    simp only [lit, if_pos rfl, Option.some_bind]
    exact hlz
  · simp [nsigEndingPatternOf, escapeDollarStr]
  · simp [sigBodyPatternOf, escapeDollarStr]
  · have he := execEscLit_escape name
      ("=function(".data ++ (param ++ (')' :: ('\x7b' :: (body ++ ('\x7d' :: rest2)))))) h2
    have hch := chars1_append isWordChar param ')'
      ('\x7b' :: (body ++ ('\x7d' :: rest2))) hp1 hp2 (by decide)
    have hlp : lit [')', '\x7b'] (')' :: ('\x7b' :: (body ++ ('\x7d' :: rest2))))
        = some (body ++ ('\x7d' :: rest2)) := rfl
    have hlz := lazyBrace_spec body rest2 hb1 hb2
    simp only [sigBodyAt, he, Option.some_bind, lit_self, hch, hlp]
    exact hlz
  · simp [helperPatternOf, escapeDollarStr]
  · have he := execEscLit_escape name
      ('=' :: ('\x7b' :: (inner ++ ('\x7d' :: ('\x7d' :: (';' :: rest3)))))) h2
    have hlp : lit ['=', '\x7b'] ('=' :: ('\x7b' :: (inner ++ ('\x7d' :: ('\x7d' :: (';' :: rest3))))))
        = some (inner ++ ('\x7d' :: ('\x7d' :: (';' :: rest3)))) := rfl
    have hlz := lazyToBraces_spec inner rest3 hi1 hi2
    simp only [helperAt, lit_self, Option.some_bind, he, hlp]
    exact hlz

/-- C8 witness: the names `a$b` (a literal `$` inside) against their own
declarations `var a$b=[1,2];`, `a$b=function(x){mm}` and `var a$b={kk}};`. -/
theorem c8_scoped_escaping_witness :
    noBareDollar (escapeDollar "a$b".data) = true
    ∧ (nsigContextPatternOf ⟨"a$b".data⟩).data
      = "var ".data ++ (escapeDollar "a$b".data ++ "\\s*=\\s*\\[(.+?)][;,]".data)
    ∧ arrayContextAt (escapeDollar "a$b".data)
        ("var ".data ++ ("a$b".data
          ++ ('=' :: ('[' :: ("1,2".data ++ (']' :: (';' :: "tail".data)))))))
      = some "1,2".data
    ∧ (nsigEndingPatternOf ⟨"a$b".data⟩ "END").data
      = "(?ms)".data ++ (escapeDollar "a$b".data ++ "END".data)
    ∧ (sigBodyPatternOf ⟨"a$b".data⟩).data
      = escapeDollar "a$b".data ++ "=function\\([a-zA-Z0-9_]+\\)\\\x7b.+?\\\x7d".data
    ∧ sigBodyAt (escapeDollar "a$b".data)
        ("a$b".data ++ ("=function(".data
          ++ ("x".data ++ (')' :: ('\x7b' :: ("mm".data ++ ('\x7d' :: "t2".data)))))))
      = some "t2".data
    ∧ (helperPatternOf ⟨"a$b".data⟩).data
      = "(var ".data ++ (escapeDollar "a$b".data ++ "=\\\x7b(?:.|\\n)+?\\\x7d\\\x7d;)".data)
    ∧ helperAt (escapeDollar "a$b".data)
        ("var ".data ++ ("a$b".data
          ++ ('=' :: ('\x7b' :: ("kk".data ++ ('\x7d' :: ('\x7d' :: (';' :: "t3".data))))))))
      = some "t3".data :=
  c8_scoped_escaping ("a$b".data) ("1,2".data) ("tail".data) ("x".data)
    ("mm".data) ("t2".data) ("kk".data) ("t3".data) "END" (by decide) (by decide)
    (by decide) (by decide) (by decide) (by decide) (by decide) (by decide)
    (by decide)

